import Mathlib

/-
Verification of the commit-scheduling engine and repository-lifecycle
controller of the auto_commit_app repository.

Shallow embedding conventions:
- Timestamps are rationals, measured in seconds (datetime arithmetic in the
  source is exact arithmetic on seconds).
- Every random draw consumed by the source (random.uniform, random.randint,
  random.random) is supplied by an explicit oracle; a validity predicate
  records the range each draw is guaranteed to lie in.
- Git, filesystem and network effects are supplied by explicit environment
  records; one AttemptEnv describes the outcome of every fallible git
  operation of one commit_and_push attempt.
-/

namespace AutoCommit

/-- Configuration of CommitPatternGenerator (src/utils/human_patterns.py,
constructor arguments min_commits, max_commits, window_hours, randomize). -/
structure GenConfig where
  minCommits : ℕ
  maxCommits : ℕ
  windowHours : ℕ
  randomize : Bool
deriving DecidableEq

/-- Window length in seconds: window_hours * 3600. -/
def GenConfig.windowSeconds (cfg : GenConfig) : ℚ :=
  (cfg.windowHours : ℚ) * 3600

/-- One valuation of all random draws consumed by generate_commit_schedule.
Draws are indexed by the iteration of the loop that consumes them; this is a
faithful reparameterization of the single stream of independent draws in the
source. -/
structure GenOracle where
  /-- random.randint(min_commits, max_commits) (line 35). -/
  numCommits : ℕ
  /-- random.uniform(600, 2700) at outer iteration k (line 47). -/
  baseInterval : ℕ → ℚ
  /-- random.uniform(0.7, 1.3) at outer iteration k (line 50). -/
  randomFactor : ℕ → ℚ
  /-- random.random() at outer iteration k (line 54). -/
  clusterRoll : ℕ → ℚ
  /-- random.randint(2, 4) at outer iteration k (line 55). -/
  clusterSize : ℕ → ℕ
  /-- random.uniform(60, 300), j-th draw of the cluster at iteration k (line 61). -/
  clusterGap : ℕ → ℕ → ℚ
  /-- random.uniform(0, window_hours*3600), i-th padding draw (line 74). -/
  padOffset : ℕ → ℚ
  /-- random.uniform(-120, 120), jitter for the i-th sorted timestamp (line 84). -/
  jitter : ℕ → ℚ

/-- The ranges the library guarantees for each draw. -/
def GenOracle.Valid (cfg : GenConfig) (o : GenOracle) : Prop :=
  cfg.minCommits ≤ o.numCommits ∧ o.numCommits ≤ cfg.maxCommits ∧
  (∀ k, 600 ≤ o.baseInterval k ∧ o.baseInterval k ≤ 2700) ∧
  (∀ k, 7/10 ≤ o.randomFactor k ∧ o.randomFactor k ≤ 13/10) ∧
  (∀ k, 0 ≤ o.clusterRoll k ∧ o.clusterRoll k < 1) ∧
  (∀ k, 2 ≤ o.clusterSize k ∧ o.clusterSize k ≤ 4) ∧
  (∀ k j, 60 ≤ o.clusterGap k j ∧ o.clusterGap k j ≤ 300) ∧
  (∀ i, 0 ≤ o.padOffset i ∧ o.padOffset i ≤ cfg.windowSeconds) ∧
  (∀ i, -120 ≤ o.jitter i ∧ o.jitter i ≤ 120)

/-- The inner cluster loop (human_patterns.py lines 55-61): up to n more
iterations of "for _ in range(cluster_size)"; count is len(commit_times);
returns the appended timestamps and the updated current_time.  Gaps are
indexed by the remaining iteration count n, a reparameterization of the
independent uniform(60, 300) draws. -/
def clusterLoop (gap : ℕ → ℚ) (numCommits : ℕ) (endTime : ℚ) :
    ℕ → ℕ → ℚ → List ℚ × ℚ
  | 0, _, cur => ([], cur)
  | n + 1, count, cur =>
    if numCommits ≤ count ∨ endTime ≤ cur then ([], cur)
    else
      let next := clusterLoop gap numCommits endTime n (count + 1) (cur + gap n)
      (cur :: next.1, next.2)

/-- The outer while loop (human_patterns.py lines 45-65):
"while len(commit_times) < num_commits and current_time < end_time".
k indexes the outer iteration (for the oracle); fuel bounds the number of
outer iterations.  Each guarded iteration appends at least one timestamp, so
fuel = num_commits makes the embedding exact (walk_fuel_stable below). -/
def walk (o : GenOracle) (numCommits : ℕ) (endTime : ℚ) :
    ℕ → ℕ → ℚ → List ℚ → List ℚ
  | 0, _, _, acc => acc
  | fuel + 1, k, cur, acc =>
    if acc.length < numCommits ∧ cur < endTime then
      if o.clusterRoll k < 1/5 then
        let c := clusterLoop (o.clusterGap k) numCommits endTime (o.clusterSize k)
          acc.length cur
        walk o numCommits endTime fuel (k + 1) c.2 (acc ++ c.1)
      else
        walk o numCommits endTime fuel (k + 1)
          (cur + o.baseInterval k * o.randomFactor k) (acc ++ [cur])
    else acc

/-- Padding timestamps (human_patterns.py lines 70-76): uniform draws over the
whole window, appended until num_commits entries exist. -/
def padTimes (o : GenOracle) (startTime : ℚ) (n : ℕ) : List ℚ :=
  (List.range n).map fun i => startTime + o.padOffset i

/-- Steps 2-6 of generate_commit_schedule in the randomized branch: walk,
truncate to num_commits, pad up to num_commits, sort ascending
(human_patterns.py lines 34-79).  A sorted permutation of rationals is unique
as a list of values, so insertionSort agrees with the sort of the source. -/
def preJitterSchedule (cfg : GenConfig) (o : GenOracle) (startTime : ℚ) : List ℚ :=
  let numCommits := o.numCommits
  let endTime := startTime + cfg.windowSeconds
  let walked := walk o numCommits endTime numCommits 0 startTime []
  let clipped := walked.take numCommits
  let padded := clipped ++ padTimes o startTime (numCommits - clipped.length)
  List.insertionSort (· ≤ ·) padded

/-- The jitter pass (human_patterns.py lines 82-90): add uniform(-120, 120)
to each timestamp; keep the jittered value only if it stays inside
[start_time, end_time], otherwise keep the original. -/
def jitterList (o : GenOracle) (startTime endTime : ℚ) : ℕ → List ℚ → List ℚ
  | _, [] => []
  | i, t :: ts =>
    (if startTime ≤ t + o.jitter i ∧ t + o.jitter i ≤ endTime then t + o.jitter i
     else t) :: jitterList o startTime endTime (i + 1) ts

/-- generate_commit_schedule (human_patterns.py lines 22-93).  In the
non-randomized branch: max_commits evenly spaced timestamps with interval
window_hours * 3600 / num_commits (exact rational division; the source
requires max_commits > 0 there, as Python would raise ZeroDivisionError). -/
def generateCommitSchedule (cfg : GenConfig) (o : GenOracle) (startTime : ℚ) :
    List ℚ :=
  if cfg.randomize = false then
    (List.range cfg.maxCommits).map fun i : ℕ =>
      startTime + (i : ℚ) * (cfg.windowSeconds / (cfg.maxCommits : ℚ))
  else
    jitterList o startTime (startTime + cfg.windowSeconds) 0
      (preJitterSchedule cfg o startTime)

/-- settings.py: COMMIT_WINDOW_HOURS = 8 (a fixed constant, not read from the
environment). -/
def commitWindowHours : ℕ := 8

/-- State of SchedulerManager (src/utils/scheduler_manager.py).  The
constructor builds a CommitPatternGenerator from MIN_COMMITS_PER_DAY,
MAX_COMMITS_PER_DAY, COMMIT_WINDOW_HOURS and randomize=True; min and max are
read from the environment, so they stay parameters here. -/
structure SchedulerState where
  patternConfig : GenConfig
  schedule : List ℚ
  nextCommitIdx : ℕ
  startTime : Option ℚ
  totalCommits : ℕ
  successfulCommits : ℕ
deriving DecidableEq

/-- SchedulerManager.__init__ (scheduler_manager.py lines 16-27). -/
def SchedulerState.init (minC maxC : ℕ) : SchedulerState :=
  { patternConfig := ⟨minC, maxC, commitWindowHours, true⟩
    schedule := []
    nextCommitIdx := 0
    startTime := none
    totalCommits := 0
    successfulCommits := 0 }

/-- generate_new_schedule (scheduler_manager.py lines 30-44).  startFrom is
the resolved start time: the argument when given, otherwise datetime.now().
Note: the counters total_commits and successful_commits are not touched. -/
def generateNewSchedule (s : SchedulerState) (o : GenOracle) (startFrom : ℚ) :
    SchedulerState :=
  { s with
    schedule := generateCommitSchedule s.patternConfig o startFrom
    nextCommitIdx := 0
    startTime := some startFrom }

/-- get_next_commit_time (scheduler_manager.py lines 46-50). -/
def getNextCommitTime (s : SchedulerState) : Option ℚ :=
  s.schedule[s.nextCommitIdx]?

/-- mark_commit_completed (scheduler_manager.py lines 52-57). -/
def markCommitCompleted (s : SchedulerState) (success : Bool) : SchedulerState :=
  { s with
    nextCommitIdx := s.nextCommitIdx + 1
    totalCommits := s.totalCommits + 1
    successfulCommits :=
      if success then s.successfulCommits + 1 else s.successfulCommits }

/-- The dictionary returned by get_schedule_progress.  remaining is an
integer, as Python subtraction of ints. -/
structure ScheduleProgress where
  totalScheduled : ℕ
  completed : ℕ
  remaining : ℤ
  upcoming : ℕ
  successful : ℕ
  nextCommit : Option ℚ
  windowEnd : Option ℚ
deriving DecidableEq

/-- get_schedule_progress (scheduler_manager.py lines 59-72).  now is the
value of datetime.now() observed by the call. -/
def getScheduleProgress (s : SchedulerState) (now : ℚ) : ScheduleProgress :=
  let upcoming := s.schedule.filter fun t => decide (now < t)
  { totalScheduled := s.schedule.length
    completed := s.nextCommitIdx
    remaining := (s.schedule.length : ℤ) - (s.nextCommitIdx : ℤ)
    upcoming := upcoming.length
    successful := s.successfulCommits
    nextCommit := upcoming.head?
    windowEnd := s.startTime.map fun st => st + (commitWindowHours : ℚ) * 3600 }

/-- wait_for_next_commit (scheduler_manager.py lines 74-97).  Returns the
timestamp handed back to the caller and the duration actually slept (none
when the function returns without sleeping).  now is datetime.now() at entry;
jitter is the uniform(-30, 30) draw, consumed only on the sleeping path. -/
def waitForNextCommit (s : SchedulerState) (now jitter : ℚ) :
    Option ℚ × Option ℚ :=
  if h : s.nextCommitIdx < s.schedule.length then
    let nextTime := s.schedule.get ⟨s.nextCommitIdx, h⟩
    if nextTime ≤ now then (some nextTime, none)
    else
      let waitSeconds := nextTime - now
      if 0 < waitSeconds then
        (some nextTime, some (max 1 (waitSeconds + jitter)))
      else (some nextTime, none)
  else (none, none)

/-- should_stop (scheduler_manager.py lines 99-106). -/
def shouldStop (s : SchedulerState) (now : ℚ) : Bool :=
  match s.startTime with
  | none => false
  | some st =>
    decide (st + (commitWindowHours : ℚ) * 3600 ≤ now) ||
      decide (s.schedule.length ≤ s.nextCommitIdx)

/-- The operations a client may perform on the tracker after
generate_new_schedule. -/
inductive TrackerOp where
  | wait (now jitter : ℚ)
  | mark (success : Bool)
  | readNext
  | readProgress (now : ℚ)
  | checkStop (now : ℚ)

/-- State transition of one tracker operation.  Only mark_commit_completed
mutates the state; the Bool component is the ghost protocol flag: true when
the last wait returned a timestamp that has not been marked yet. -/
def trackerStep : SchedulerState × Bool → TrackerOp → SchedulerState × Bool
  | (s, _), .wait now j => (s, ((waitForNextCommit s now j).1).isSome)
  | (s, _), .mark success => (markCommitCompleted s success, false)
  | (s, p), .readNext => (s, p)
  | (s, p), .readProgress _ => (s, p)
  | (s, p), .checkStop _ => (s, p)

/-- Run a list of tracker operations. -/
def runOps : SchedulerState × Bool → List TrackerOp → SchedulerState × Bool
  | sp, [] => sp
  | sp, op :: rest => runOps (trackerStep sp op) rest

/-- Whether the protocol allows the operation given the pending flag: a wait
requires the previous returned timestamp to have been marked, a mark
requires an unmarked returned timestamp; reads are unrestricted. -/
def opAllowed (p : Bool) : TrackerOp → Bool
  | .wait _ _ => !p
  | .mark _ => p
  | _ => true

/-- The documented calling protocol: mark_commit_completed is called exactly
once per wait_for_next_commit that returned a timestamp, before the next
wait_for_next_commit call.  Read-only operations are unrestricted. -/
def validOps : SchedulerState × Bool → List TrackerOp → Bool
  | _, [] => true
  | (s, p), op :: rest =>
    opAllowed p op && validOps (trackerStep (s, p) op) rest

/-- Lifecycle flags of GitHubAgent (src/agents/github_agent.py lines 25-26). -/
structure GitState where
  isEmptyRepo : Bool
  initialCommitDone : Bool
deriving DecidableEq

/-- Outcome of every fallible git operation of one commit_and_push attempt
(github_agent.py lines 166-219).  A some value is the message of the
GitCommandError raised at that point; none means the operation succeeded. -/
structure AttemptEnv where
  /-- error raised while staging or reading the status (lines 170-177) -/
  stageErr : Option String
  /-- the porcelain status output is empty (line 178) -/
  statusClean : Bool
  /-- error raised by repo.index.commit (line 182) -/
  commitErr : Option String
  /-- the repository has a remote configured (line 186) -/
  hasRemote : Bool
  /-- error of the first origin.push() (line 191) -/
  pushFirstErr : Option String
  /-- error of the retried push with set_upstream (line 195) -/
  pushRetryErr : Option String
  /-- whether create_initial_commit would succeed if invoked (lines 109-144) -/
  bootstrapOk : Bool

/-- The substring test of line 208: "HEAD" in str(e) and ("did not resolve"
in str(e) or "not a valid object" in str(e)). -/
def headErrCheck (e : String) : Bool :=
  decide ("HEAD".toList <:+: e.toList) &&
    (decide ("did not resolve".toList <:+: e.toList) ||
      decide ("not a valid object".toList <:+: e.toList))

/-- The substring test of line 193: "no upstream branch" in
str(push_error).lower(). -/
def noUpstreamCheck (e : String) : Bool :=
  decide ("no upstream branch".toList <:+: e.toLower.toList)

/-- Result of one commit_and_push call, with instrumentation: bootstrapRuns
counts the invocations of create_initial_commit and commitsMade the commits
actually created, across the call and all its recursive retries. -/
structure CapResult where
  ok : Bool
  msg : String
  bootstrapRuns : ℕ
  commitsMade : ℕ
deriving DecidableEq

/-- commit_and_push (github_agent.py lines 166-219).  One AttemptEnv is
consumed per attempt; the recursive retry of line 213 consumes the rest of
the list.  preCommits is the number of commits already created in the
current attempt when a GitCommandError reaches the handler of lines
205-216: the handler checks the HEAD pattern, and on a match sets
is_empty_repo, runs create_initial_commit, and on bootstrap success retries
commit_and_push recursively (create_initial_commit itself commits once and
sets is_empty_repo := false, initial_commit_done := true). -/
def commitAndPush (msg : String) : GitState → List AttemptEnv →
    GitState × CapResult
  | st, [] => (st, ⟨false, "no attempt environment", 0, 0⟩)
  | st, e :: rest =>
    let handle : String → ℕ → GitState × CapResult := fun err preCommits =>
      if headErrCheck err then
        if e.bootstrapOk then
          let r := commitAndPush msg ⟨false, true⟩ rest
          (r.1, { r.2 with
                  bootstrapRuns := r.2.bootstrapRuns + 1
                  commitsMade := r.2.commitsMade + 1 + preCommits })
        else
          ({ st with isEmptyRepo := true },
           ⟨false, "Failed to create initial commit", 1, preCommits⟩)
      else (st, ⟨false, err, 0, preCommits⟩)
    match e.stageErr with
    | some err => handle err 0
    | none =>
      if e.statusClean then (st, ⟨false, "No changes to commit", 0, 0⟩)
      else
        match e.commitErr with
        | some err => handle err 0
        | none =>
          if e.hasRemote then
            match e.pushFirstErr with
            | none => (st, ⟨true, msg, 0, 1⟩)
            | some perr =>
              if noUpstreamCheck perr then
                match e.pushRetryErr with
                | none => (st, ⟨true, msg, 0, 1⟩)
                | some perr₂ => handle perr₂ 1
              else handle perr 1
          else (st, ⟨true, msg ++ " (local only)", 0, 1⟩)

/-- How one iteration of the scheduled-commit loop resolves
(main.py lines 154-186): cancelled = asyncio.CancelledError reached the
handler of line 180; exception = any other exception reached the handler of
line 183; noMore = wait_for_next_commit returned None; cycle = the cycle ran
to completion and execute returned the given success flag. -/
inductive CycleEv where
  | cancelled
  | exception (msg : String)
  | noMore
  | cycle (success : Bool)

/-- External inputs of the scheduled-commit loop, per iteration index:
the self.running flag, the wall clock observed by should_stop, and how the
body resolves. -/
structure LoopEnv where
  running : ℕ → Bool
  now : ℕ → ℚ
  ev : ℕ → CycleEv

/-- Why run_scheduled_commits left its while loop. -/
inductive LoopExit where
  | guardStop
  | noMoreScheduled
  | cancelled
  | fuelOut
deriving DecidableEq

/-- Observable actions of the loop body. -/
inductive LoopAct where
  | execCycle (success : Bool)
  | sleepPause (seconds : ℚ)
deriving DecidableEq

/-- run_scheduled_commits while loop (main.py lines 154-186), unrolled up to
fuel iterations (fuelOut is the modelling artifact for running out of
unrolling).  A cycle iteration executes the commit cycle and calls
mark_commit_completed; an exception iteration sleeps 5 seconds and
continues; cancellation and an exhausted schedule break out of the loop. -/
def runScheduledLoop (env : LoopEnv) :
    ℕ → ℕ → SchedulerState → SchedulerState × LoopExit × List LoopAct
  | 0, _, s => (s, .fuelOut, [])
  | fuel + 1, i, s =>
    if env.running i && !(shouldStop s (env.now i)) then
      match env.ev i with
      | .cancelled => (s, .cancelled, [])
      | .noMore => (s, .noMoreScheduled, [])
      | .exception _ =>
        let r := runScheduledLoop env fuel (i + 1) s
        (r.1, r.2.1, LoopAct.sleepPause 5 :: r.2.2)
      | .cycle ok =>
        let r := runScheduledLoop env fuel (i + 1) (markCommitCompleted s ok)
        (r.1, r.2.1, LoopAct.execCycle ok :: r.2.2)
    else (s, .guardStop, [])

/-- A concrete oracle with every draw inside its guaranteed range. -/
def oConst : GenOracle where
  numCommits := 2
  baseInterval := fun _ => 600
  randomFactor := fun _ => 1
  clusterRoll := fun _ => 1/2
  clusterSize := fun _ => 2
  clusterGap := fun _ _ => 60
  padOffset := fun _ => 0
  jitter := fun _ => 0

/-- Claim C8: when randomize is false, generate_commit_schedule is
deterministic and returns exactly max_count timestamps, the i-th being
window.start + i * (duration / max_count).  The hypothesis 0 < max_count
matches Python, where max_count = 0 would raise ZeroDivisionError. -/
theorem evenly_spaced_deterministic (cfg : GenConfig) (o : GenOracle)
    (startTime : ℚ) (hr : cfg.randomize = false) (hpos : 0 < cfg.maxCommits) :
    (generateCommitSchedule cfg o startTime).length = cfg.maxCommits ∧
    ∀ i (h : i < (generateCommitSchedule cfg o startTime).length),
      (generateCommitSchedule cfg o startTime).get ⟨i, h⟩ =
        startTime + (i : ℚ) * (cfg.windowSeconds / (cfg.maxCommits : ℚ)) := by
  have hgen : generateCommitSchedule cfg o startTime =
      (List.range cfg.maxCommits).map fun i : ℕ =>
        startTime + (i : ℚ) * (cfg.windowSeconds / (cfg.maxCommits : ℚ)) := by
    rw [generateCommitSchedule, if_pos hr]
  constructor
  · rw [hgen, List.length_map, List.length_range]
  · intro i h
    have h2 := h
    rw [hgen] at h2
    simp only [hgen, List.get_eq_getElem, List.getElem_map, List.getElem_range]

/-- Witness for C8 at a concrete configuration. -/
theorem evenly_spaced_deterministic_witness :
    ((⟨2, 2, 8, false⟩ : GenConfig).randomize = false ∧
      0 < (⟨2, 2, 8, false⟩ : GenConfig).maxCommits) ∧
    ((generateCommitSchedule ⟨2, 2, 8, false⟩ oConst 0).length = 2 ∧
     ∀ i (h : i < (generateCommitSchedule ⟨2, 2, 8, false⟩ oConst 0).length),
       (generateCommitSchedule ⟨2, 2, 8, false⟩ oConst 0).get ⟨i, h⟩ =
         0 + (i : ℚ) * (GenConfig.windowSeconds ⟨2, 2, 8, false⟩ / (2 : ℚ))) :=
  ⟨⟨rfl, by decide⟩, evenly_spaced_deterministic ⟨2, 2, 8, false⟩ oConst 0 rfl (by decide)⟩

/-- A tracker state with nonzero counters, as after some completed cycles. -/
def sCounters : SchedulerState :=
  { patternConfig := ⟨2, 2, 8, true⟩, schedule := [], nextCommitIdx := 0,
    startTime := none, totalCommits := 5, successfulCommits := 3 }

/-- Claim C3 counterexample: generate_new_schedule does not reset the
counters; a state with total_commits = 5 and successful_commits = 3 keeps
both values. -/
theorem counters_not_reset :
    ¬ ((generateNewSchedule sCounters oConst 0).totalCommits = 0 ∧
       (generateNewSchedule sCounters oConst 0).successfulCommits = 0) := by
  intro h
  exact absurd h.1 (by simp [generateNewSchedule, sCounters])

/-- Claim C3 (amended): generate_new_schedule installs a freshly generated
schedule overwriting any prior one, resets the cursor to 0 and records the
window start, but leaves both counters (total_commits, successful_commits)
unchanged rather than resetting them. -/
theorem generateNewSchedule_spec (s : SchedulerState) (o : GenOracle) (t : ℚ) :
    (generateNewSchedule s o t).schedule =
      generateCommitSchedule s.patternConfig o t ∧
    (generateNewSchedule s o t).nextCommitIdx = 0 ∧
    (generateNewSchedule s o t).startTime = some t ∧
    (generateNewSchedule s o t).totalCommits = s.totalCommits ∧
    (generateNewSchedule s o t).successfulCommits = s.successfulCommits :=
  ⟨rfl, rfl, rfl, rfl, rfl⟩

/-- A tracker state with one schedule entry at time 100. -/
def sProgress : SchedulerState :=
  { patternConfig := ⟨2, 2, 8, true⟩, schedule := [100], nextCommitIdx := 0,
    startTime := some 0, totalCommits := 0, successfulCommits := 0 }

/-- Claim C9 counterexample: two get_schedule_progress calls with no
intervening tracker mutation disagree once the wall clock passes a schedule
entry (here observed at times 50 and 150 around the entry at 100): the
upcoming count and next_commit fields change. -/
theorem progress_differs_over_time :
    getScheduleProgress sProgress 50 ≠ getScheduleProgress sProgress 150 := by
  intro h
  have h2 := congrArg ScheduleProgress.upcoming h
  norm_num [getScheduleProgress, sProgress] at h2

/-- Claim C9 (amended): get_schedule_progress never mutates the tracker, and
all its time-independent fields (total_scheduled, completed, remaining,
successful, window_end) are identical across calls; but the upcoming and
next_commit fields are computed from datetime.now(), so calls observing
different times may differ (calls observing the same time agree, the
function being pure in state and time). -/
theorem progress_readonly_fields (s : SchedulerState) (p : Bool) (n₁ n₂ : ℚ) :
    trackerStep (s, p) (TrackerOp.readProgress n₁) = (s, p) ∧
    (getScheduleProgress s n₁).totalScheduled =
      (getScheduleProgress s n₂).totalScheduled ∧
    (getScheduleProgress s n₁).completed = (getScheduleProgress s n₂).completed ∧
    (getScheduleProgress s n₁).remaining = (getScheduleProgress s n₂).remaining ∧
    (getScheduleProgress s n₁).successful =
      (getScheduleProgress s n₂).successful ∧
    (getScheduleProgress s n₁).windowEnd = (getScheduleProgress s n₂).windowEnd :=
  ⟨rfl, rfl, rfl, rfl, rfl, rfl⟩

/-- Claim C10: when the cursor is in range, wait_for_next_commit returns the
schedule entry at the cursor unmodified — the jitter draw never changes the
returned timestamp, only the suspension — and when that entry is already due
it returns without sleeping. -/
theorem wait_returns_cursor_entry (s : SchedulerState) (now jitter : ℚ)
    (h : s.nextCommitIdx < s.schedule.length) :
    (waitForNextCommit s now jitter).1 =
      some (s.schedule.get ⟨s.nextCommitIdx, h⟩) ∧
    (∀ j₂ : ℚ, (waitForNextCommit s now j₂).1 = (waitForNextCommit s now jitter).1) ∧
    (s.schedule.get ⟨s.nextCommitIdx, h⟩ ≤ now →
      (waitForNextCommit s now jitter).2 = none) := by
  refine ⟨?_, ?_, ?_⟩
  · simp only [waitForNextCommit, dif_pos h]
    split_ifs <;> rfl
  · intro j₂
    simp only [waitForNextCommit, dif_pos h]
    split_ifs <;> rfl
  · intro hle
    simp only [waitForNextCommit, dif_pos h]
    rw [if_pos hle]

/-- A tracker state with a single due entry at time 5. -/
def sWait : SchedulerState :=
  { patternConfig := ⟨2, 2, 8, true⟩, schedule := [5], nextCommitIdx := 0,
    startTime := some 0, totalCommits := 0, successfulCommits := 0 }

/-- Witness for C10: entry 5 is due at time 10, returned unmodified with no
sleep. -/
theorem wait_returns_cursor_entry_witness :
    sWait.nextCommitIdx < sWait.schedule.length ∧
    ((waitForNextCommit sWait 10 3).1 = some 5 ∧
     (∀ j₂ : ℚ, (waitForNextCommit sWait 10 j₂).1 = (waitForNextCommit sWait 10 3).1) ∧
     ((5 : ℚ) ≤ 10 → (waitForNextCommit sWait 10 3).2 = none)) :=
  ⟨by decide, wait_returns_cursor_entry sWait 10 3 (by decide)⟩

/-- Claim C6: a cycle on a non-empty repository whose staging leaves no
pending changes returns the distinguished non-error failure
(False, "No changes to commit"), creates no commit, runs no bootstrap, and
leaves is_empty_repo and initial_commit_done unchanged. -/
theorem noChanges_nonerror_outcome (st : GitState) (msg : String)
    (e : AttemptEnv) (rest : List AttemptEnv) (hempty : st.isEmptyRepo = false)
    (hstage : e.stageErr = none) (hclean : e.statusClean = true) :
    commitAndPush msg st (e :: rest) =
      (st, ⟨false, "No changes to commit", 0, 0⟩) := by
  simp [commitAndPush, hstage, hclean]

/-- An attempt environment where staging succeeds but leaves nothing to
commit. -/
def envClean : AttemptEnv :=
  { stageErr := none, statusClean := true, commitErr := none,
    hasRemote := false, pushFirstErr := none, pushRetryErr := none,
    bootstrapOk := true }

/-- Witness for C6 on a concrete state and environment. -/
theorem noChanges_nonerror_outcome_witness :
    ((⟨false, true⟩ : GitState).isEmptyRepo = false ∧
      envClean.stageErr = none ∧ envClean.statusClean = true) ∧
    commitAndPush "update content" ⟨false, true⟩ [envClean] =
      (⟨false, true⟩, ⟨false, "No changes to commit", 0, 0⟩) :=
  ⟨⟨rfl, rfl, rfl⟩,
   noChanges_nonerror_outcome ⟨false, true⟩ "update content" envClean [] rfl rfl rfl⟩

/-- A GitCommandError message matching the HEAD-recovery pattern of
github_agent.py line 208. -/
def headMsg : String := "HEAD did not resolve"

/-- An attempt whose commit raises the HEAD-recovery error, with a remote
configured and a bootstrap that would succeed. -/
def envHead : AttemptEnv :=
  { stageErr := none, statusClean := false, commitErr := some headMsg,
    hasRemote := true, pushFirstErr := none, pushRetryErr := none,
    bootstrapOk := true }

/-- An attempt that commits successfully with no remote configured. -/
def envLocalOk : AttemptEnv :=
  { stageErr := none, statusClean := false, commitErr := none,
    hasRemote := false, pushFirstErr := none, pushRetryErr := none,
    bootstrapOk := true }

/-- Claim C1 counterexample: the recovery path is a recursive retry with no
depth bound of its own.  In an environment where the retried attempt fails
with a HEAD-resolution error again, create_initial_commit runs twice, so the
recovery depth is not bounded by 1. -/
theorem headRecovery_not_depth_bounded :
    (commitAndPush "update" ⟨false, false⟩
        [envHead, envHead, envLocalOk]).2.bootstrapRuns = 2 ∧
    ¬ (commitAndPush "update" ⟨false, false⟩
        [envHead, envHead, envLocalOk]).2.bootstrapRuns ≤ 1 := by
  decide

/-- Claim C1 (amended): when a normal-cycle commit/push attempt fails with a
HEAD-resolution error, the controller marks the repository empty and runs
create_initial_commit.  If the bootstrap fails, the cycle returns
(False, "Failed to create initial commit").  If it succeeds, commit_and_push
is retried recursively from the bootstrapped state and the cycle returns
that retry's outcome (with the bootstrap counted); the bootstrap therefore
runs exactly once only when the retry performs no further recovery — the
code itself imposes no recursion depth bound. -/
theorem headRecovery_spec (st : GitState) (msg err : String) (e : AttemptEnv)
    (rest : List AttemptEnv) (hstage : e.stageErr = none)
    (hclean : e.statusClean = false) (hcommit : e.commitErr = some err)
    (hhead : headErrCheck err = true) :
    (e.bootstrapOk = false →
      commitAndPush msg st (e :: rest) =
        ({ st with isEmptyRepo := true },
         ⟨false, "Failed to create initial commit", 1, 0⟩)) ∧
    (e.bootstrapOk = true →
      commitAndPush msg st (e :: rest) =
        ((commitAndPush msg ⟨false, true⟩ rest).1,
         ⟨(commitAndPush msg ⟨false, true⟩ rest).2.ok,
          (commitAndPush msg ⟨false, true⟩ rest).2.msg,
          (commitAndPush msg ⟨false, true⟩ rest).2.bootstrapRuns + 1,
          (commitAndPush msg ⟨false, true⟩ rest).2.commitsMade + 1⟩)) ∧
    (e.bootstrapOk = true →
      (commitAndPush msg ⟨false, true⟩ rest).2.bootstrapRuns = 0 →
      (commitAndPush msg st (e :: rest)).2.bootstrapRuns = 1) := by
  refine ⟨fun hb => ?_, fun hb => ?_, fun hb h0 => ?_⟩
  · simp [commitAndPush, hstage, hclean, hcommit, hhead, hb]
  · simp [commitAndPush, hstage, hclean, hcommit, hhead, hb]
  · simp [commitAndPush, hstage, hclean, hcommit, hhead, hb, h0]

/-- Witness for the amended C1: one HEAD failure followed by a clean retry
gives exactly one bootstrap run. -/
theorem headRecovery_spec_witness :
    (envHead.stageErr = none ∧ envHead.statusClean = false ∧
      envHead.commitErr = some headMsg ∧ headErrCheck headMsg = true) ∧
    ((envHead.bootstrapOk = false →
      commitAndPush "update" ⟨false, false⟩ [envHead, envLocalOk] =
        ({ (⟨false, false⟩ : GitState) with isEmptyRepo := true },
         ⟨false, "Failed to create initial commit", 1, 0⟩)) ∧
     (envHead.bootstrapOk = true →
      commitAndPush "update" ⟨false, false⟩ [envHead, envLocalOk] =
        ((commitAndPush "update" ⟨false, true⟩ [envLocalOk]).1,
         ⟨(commitAndPush "update" ⟨false, true⟩ [envLocalOk]).2.ok,
          (commitAndPush "update" ⟨false, true⟩ [envLocalOk]).2.msg,
          (commitAndPush "update" ⟨false, true⟩ [envLocalOk]).2.bootstrapRuns + 1,
          (commitAndPush "update" ⟨false, true⟩ [envLocalOk]).2.commitsMade + 1⟩)) ∧
     (envHead.bootstrapOk = true →
      (commitAndPush "update" ⟨false, true⟩ [envLocalOk]).2.bootstrapRuns = 0 →
      (commitAndPush "update" ⟨false, false⟩ [envHead, envLocalOk]).2.bootstrapRuns = 1)) :=
  ⟨⟨rfl, rfl, rfl, by decide⟩,
   headRecovery_spec ⟨false, false⟩ "update" headMsg envHead [envLocalOk]
     rfl rfl rfl (by decide)⟩

/-- Claim C7: no single failed or exception-raising cycle terminates the
scheduled-commit loop.  An iteration whose body raises an unexpected
exception pauses 5 seconds and continues with the rest of the loop, and
every exit of the loop is the while guard turning false (external stop flag
or window/schedule exhaustion via should_stop), an exhausted schedule, or
cancellation — never an exception (fuelOut is the finite-unrolling
artifact of the embedding). -/
theorem loop_survives_exceptions (env : LoopEnv) (fuel i : ℕ)
    (s : SchedulerState) (m : String)
    (hg : (env.running i && !(shouldStop s (env.now i))) = true)
    (hev : env.ev i = CycleEv.exception m) :
    (runScheduledLoop env (fuel + 1) i s =
      ((runScheduledLoop env fuel (i + 1) s).1,
       (runScheduledLoop env fuel (i + 1) s).2.1,
       LoopAct.sleepPause 5 :: (runScheduledLoop env fuel (i + 1) s).2.2)) ∧
    (∀ (f j : ℕ) (s₂ : SchedulerState),
      (runScheduledLoop env f j s₂).2.1 = LoopExit.guardStop ∨
      (runScheduledLoop env f j s₂).2.1 = LoopExit.noMoreScheduled ∨
      (runScheduledLoop env f j s₂).2.1 = LoopExit.cancelled ∨
      (runScheduledLoop env f j s₂).2.1 = LoopExit.fuelOut) := by
  constructor
  · simp [runScheduledLoop, hg, hev]
  · intro f
    induction f with
    | zero => intro j s₂; simp [runScheduledLoop]
    | succ n ih =>
      intro j s₂
      simp only [runScheduledLoop]
      split
      · cases henv : env.ev j
        · simp
        · simpa using ih (j + 1) s₂
        · simp
        · simpa using ih (j + 1) _
      · simp

/-- A loop environment whose every iteration raises an unexpected
exception, with the stop flag never set and the clock frozen at 0. -/
def envExc : LoopEnv :=
  { running := fun _ => true, now := fun _ => 0,
    ev := fun _ => CycleEv.exception "boom" }

/-- Witness for C7 at a concrete environment and state. -/
theorem loop_survives_exceptions_witness :
    ((envExc.running 0 && !(shouldStop sWait (envExc.now 0))) = true ∧
      envExc.ev 0 = CycleEv.exception "boom") ∧
    ((runScheduledLoop envExc 1 0 sWait =
       ((runScheduledLoop envExc 0 1 sWait).1,
        (runScheduledLoop envExc 0 1 sWait).2.1,
        LoopAct.sleepPause 5 :: (runScheduledLoop envExc 0 1 sWait).2.2)) ∧
     (∀ (f j : ℕ) (s₂ : SchedulerState),
       (runScheduledLoop envExc f j s₂).2.1 = LoopExit.guardStop ∨
       (runScheduledLoop envExc f j s₂).2.1 = LoopExit.noMoreScheduled ∨
       (runScheduledLoop envExc f j s₂).2.1 = LoopExit.cancelled ∨
       (runScheduledLoop envExc f j s₂).2.1 = LoopExit.fuelOut)) :=
  ⟨⟨by norm_num [envExc, sWait, shouldStop, commitWindowHours], rfl⟩,
   loop_survives_exceptions envExc 0 0 sWait "boom"
     (by norm_num [envExc, sWait, shouldStop, commitWindowHours]) rfl⟩

/-- The invariant tied to the calling protocol: the cursor never passes the
end of the schedule, and a pending unmarked wait means the cursor is
strictly inside the schedule. -/
def TrackerInv : SchedulerState × Bool → Prop
  | (s, p) =>
    s.nextCommitIdx ≤ s.schedule.length ∧
      (p = true → s.nextCommitIdx < s.schedule.length)

lemma waitForNextCommit_fst_isSome (s : SchedulerState) (now j : ℚ) :
    ((waitForNextCommit s now j).1).isSome =
      decide (s.nextCommitIdx < s.schedule.length) := by
  by_cases h : s.nextCommitIdx < s.schedule.length
  · simp only [waitForNextCommit, dif_pos h]
    split_ifs <;> simp [h]
  · simp [waitForNextCommit, dif_neg h, h]

lemma trackerStep_inv (sp : SchedulerState × Bool) (op : TrackerOp)
    (hinv : TrackerInv sp) (hok : opAllowed sp.2 op = true) :
    TrackerInv (trackerStep sp op) ∧
      sp.1.nextCommitIdx ≤ (trackerStep sp op).1.nextCommitIdx := by
  obtain ⟨s, p⟩ := sp
  obtain ⟨h₁, h₂⟩ := hinv
  cases op with
  | wait now j =>
    refine ⟨⟨h₁, ?_⟩, le_refl _⟩
    intro hp
    have := waitForNextCommit_fst_isSome s now j
    rw [hp] at this
    exact of_decide_eq_true this.symm
  | mark b =>
    have hp : p = true := by simpa [opAllowed] using hok
    have hlt : s.nextCommitIdx < s.schedule.length := h₂ hp
    refine ⟨⟨?_, ?_⟩, ?_⟩
    · simpa [trackerStep, markCommitCompleted] using hlt
    · intro hfalse; exact absurd hfalse (by simp [trackerStep])
    · simp [trackerStep, markCommitCompleted]
  | readNext => exact ⟨⟨h₁, h₂⟩, le_refl _⟩
  | readProgress now => exact ⟨⟨h₁, h₂⟩, le_refl _⟩
  | checkStop now => exact ⟨⟨h₁, h₂⟩, le_refl _⟩

lemma runOps_inv : ∀ (ops : List TrackerOp) (sp : SchedulerState × Bool),
    TrackerInv sp → validOps sp ops = true →
    TrackerInv (runOps sp ops) ∧
      sp.1.nextCommitIdx ≤ (runOps sp ops).1.nextCommitIdx := by
  intro ops
  induction ops with
  | nil => intro sp hinv _; exact ⟨hinv, le_refl _⟩
  | cons op rest ih =>
    intro sp hinv hval
    obtain ⟨s, p⟩ := sp
    rw [validOps, Bool.and_eq_true] at hval
    obtain ⟨hstep, hmono⟩ := trackerStep_inv (s, p) op hinv hval.1
    obtain ⟨hstep2, hmono2⟩ := ih (trackerStep (s, p) op) hstep hval.2
    exact ⟨hstep2, le_trans hmono hmono2⟩

lemma runOps_append (l₁ l₂ : List TrackerOp) :
    ∀ sp : SchedulerState × Bool,
      runOps sp (l₁ ++ l₂) = runOps (runOps sp l₁) l₂ := by
  induction l₁ with
  | nil => intro sp; rfl
  | cons op rest ih => intro sp; simp only [List.cons_append, runOps]; exact ih _

lemma validOps_append (l₁ l₂ : List TrackerOp) :
    ∀ sp : SchedulerState × Bool,
      validOps sp (l₁ ++ l₂) =
        (validOps sp l₁ && validOps (runOps sp l₁) l₂) := by
  induction l₁ with
  | nil => intro sp; rfl
  | cons op rest ih =>
    intro sp
    obtain ⟨s, p⟩ := sp
    simp only [List.cons_append, validOps, runOps, List.append_eq, ih, Bool.and_assoc]

/-- Claim C5: under the documented protocol (mark only after a wait that
returned a timestamp, exactly once, before the next wait), starting from a
freshly generated schedule, the invariant cursor ≤ schedule length holds
after every operation, the cursor is monotonically non-decreasing across the
run, and no operation other than mark_commit_completed changes the cursor. -/
theorem cursor_invariant_monotone (s : SchedulerState) (o : GenOracle) (t : ℚ)
    (ops : List TrackerOp)
    (hval : validOps (generateNewSchedule s o t, false) ops = true) :
    (∀ n : ℕ,
      (runOps (generateNewSchedule s o t, false) (ops.take n)).1.nextCommitIdx ≤
        (runOps (generateNewSchedule s o t, false) (ops.take n)).1.schedule.length) ∧
    (∀ n m : ℕ, n ≤ m →
      (runOps (generateNewSchedule s o t, false) (ops.take n)).1.nextCommitIdx ≤
        (runOps (generateNewSchedule s o t, false) (ops.take m)).1.nextCommitIdx) ∧
    (∀ (sp : SchedulerState × Bool) (op : TrackerOp),
      (∀ b, op ≠ TrackerOp.mark b) →
      (trackerStep sp op).1.nextCommitIdx = sp.1.nextCommitIdx) := by
  have hinit : TrackerInv (generateNewSchedule s o t, false) := by
    refine ⟨?_, ?_⟩
    · simp [generateNewSchedule]
    · intro hfalse; exact absurd hfalse (by simp)
  have hvalTake : ∀ n : ℕ,
      validOps (generateNewSchedule s o t, false) (ops.take n) = true := by
    intro n
    have h2 := validOps_append (ops.take n) (ops.drop n) (generateNewSchedule s o t, false)
    rw [List.take_append_drop, hval] at h2
    have h3 := h2.symm
    rw [Bool.and_eq_true] at h3
    exact h3.1
  refine ⟨?_, ?_, ?_⟩
  · intro n
    exact (runOps_inv (ops.take n) _ hinit (hvalTake n)).1.1
  · intro n m hnm
    have hsplit : ops.take m = ops.take n ++ (ops.take m).drop n := by
      conv_lhs => rw [← List.take_append_drop n (ops.take m)]
      rw [List.take_take, min_eq_left hnm]
    have hmid : validOps (runOps (generateNewSchedule s o t, false) (ops.take n))
        ((ops.take m).drop n) = true := by
      have h2 := validOps_append (ops.take n) ((ops.take m).drop n)
        (generateNewSchedule s o t, false)
      rw [← hsplit, hvalTake m] at h2
      have h3 := h2.symm
      rw [Bool.and_eq_true] at h3
      exact h3.2
    have hinv_n := (runOps_inv (ops.take n) _ hinit (hvalTake n)).1
    have := (runOps_inv ((ops.take m).drop n) _ hinv_n hmid).2
    rw [hsplit, runOps_append]
    exact this
  · intro sp op hop
    obtain ⟨s₂, p₂⟩ := sp
    cases op with
    | wait now j => rfl
    | mark b => exact absurd rfl (hop b)
    | readNext => rfl
    | readProgress now => rfl
    | checkStop now => rfl

/-- Witness for C5: a fresh schedule followed by a wait and a read, a trace
respecting the protocol. -/
theorem cursor_invariant_monotone_witness :
    validOps (generateNewSchedule (SchedulerState.init 2 2) oConst 0, false)
      [TrackerOp.wait 0 0, TrackerOp.readNext] = true ∧
    ((∀ n : ℕ,
      (runOps (generateNewSchedule (SchedulerState.init 2 2) oConst 0, false)
          ([TrackerOp.wait 0 0, TrackerOp.readNext].take n)).1.nextCommitIdx ≤
        (runOps (generateNewSchedule (SchedulerState.init 2 2) oConst 0, false)
          ([TrackerOp.wait 0 0, TrackerOp.readNext].take n)).1.schedule.length) ∧
     (∀ n m : ℕ, n ≤ m →
      (runOps (generateNewSchedule (SchedulerState.init 2 2) oConst 0, false)
          ([TrackerOp.wait 0 0, TrackerOp.readNext].take n)).1.nextCommitIdx ≤
        (runOps (generateNewSchedule (SchedulerState.init 2 2) oConst 0, false)
          ([TrackerOp.wait 0 0, TrackerOp.readNext].take m)).1.nextCommitIdx) ∧
     (∀ (sp : SchedulerState × Bool) (op : TrackerOp),
      (∀ b, op ≠ TrackerOp.mark b) →
      (trackerStep sp op).1.nextCommitIdx = sp.1.nextCommitIdx)) :=
  ⟨rfl, cursor_invariant_monotone (SchedulerState.init 2 2) oConst 0
    [TrackerOp.wait 0 0, TrackerOp.readNext] rfl⟩

lemma jitterList_length (o : GenOracle) (a b : ℚ) (i : ℕ) (l : List ℚ) :
    (jitterList o a b i l).length = l.length := by
  induction l generalizing i with
  | nil => rfl
  | cons t ts ih => simp [jitterList, ih]

lemma jitterList_mem (o : GenOracle) (a b : ℚ) (i : ℕ) (l : List ℚ)
    (hl : ∀ t ∈ l, a ≤ t ∧ t ≤ b) :
    ∀ u ∈ jitterList o a b i l, a ≤ u ∧ u ≤ b := by
  induction l generalizing i with
  | nil => intro u hu; simp [jitterList] at hu
  | cons t ts ih =>
    intro u hu
    simp only [jitterList, List.mem_cons] at hu
    rcases hu with hu | hu
    · by_cases hin : a ≤ t + o.jitter i ∧ t + o.jitter i ≤ b
      · rw [hu, if_pos hin]; exact hin
      · rw [hu, if_neg hin]; exact hl t (by simp)
    · exact ih (i + 1) (fun v hv => hl v (by simp [hv])) u hu

lemma jitterList_get_close (o : GenOracle) (a b : ℚ)
    (hj : ∀ k, -120 ≤ o.jitter k ∧ o.jitter k ≤ 120) :
    ∀ (l : List ℚ) (i n : ℕ) (h1 : n < (jitterList o a b i l).length)
      (h2 : n < l.length),
      |(jitterList o a b i l).get ⟨n, h1⟩ - l.get ⟨n, h2⟩| ≤ 120 := by
  intro l
  induction l with
  | nil => intro i n h1 h2; exact absurd h2 (by simp)
  | cons t ts ih =>
    intro i n h1 h2
    cases n with
    | zero =>
      have he : (jitterList o a b i (t :: ts)).get ⟨0, h1⟩ =
          (if a ≤ t + o.jitter i ∧ t + o.jitter i ≤ b then t + o.jitter i
           else t) := rfl
      have ht : (t :: ts).get ⟨0, h2⟩ = t := rfl
      rw [he, ht]
      by_cases hin : a ≤ t + o.jitter i ∧ t + o.jitter i ≤ b
      · rw [if_pos hin, add_sub_cancel_left]
        exact abs_le.mpr ⟨(hj i).1, (hj i).2⟩
      · rw [if_neg hin, sub_self, abs_zero]
        norm_num
    | succ m =>
      simp only [jitterList, List.get_cons_succ]
      exact ih (i + 1) m _ _

lemma clusterLoop_spec (gap : ℕ → ℚ) (numC : ℕ) (endT : ℚ)
    (hg : ∀ j, 0 ≤ gap j) :
    ∀ (n count : ℕ) (cur : ℚ),
      (∀ u ∈ (clusterLoop gap numC endT n count cur).1, cur ≤ u ∧ u < endT) ∧
      cur ≤ (clusterLoop gap numC endT n count cur).2 := by
  intro n
  induction n with
  | zero =>
    intro count cur
    exact ⟨fun u hu => absurd hu (by simp [clusterLoop]), le_refl _⟩
  | succ m ih =>
    intro count cur
    by_cases hguard : numC ≤ count ∨ endT ≤ cur
    · constructor
      · intro u hu
        rw [clusterLoop, if_pos hguard] at hu
        exact absurd hu (by simp)
      · rw [clusterLoop, if_pos hguard]
    · push_neg at hguard
      obtain ⟨ihmem, ihcur⟩ := ih (count + 1) (cur + gap m)
      constructor
      · intro u hu
        rw [clusterLoop, if_neg (by push_neg; exact hguard)] at hu
        rcases List.mem_cons.mp hu with rfl | hu
        · exact ⟨le_refl _, hguard.2⟩
        · obtain ⟨h1, h2⟩ := ihmem u hu
          exact ⟨le_trans (le_add_of_nonneg_right (hg m)) h1, h2⟩
      · rw [clusterLoop, if_neg (by push_neg; exact hguard)]
        exact le_trans (le_add_of_nonneg_right (hg m)) ihcur

lemma clusterLoop_length_pos (gap : ℕ → ℚ) (numC : ℕ) (endT : ℚ)
    (n count : ℕ) (cur : ℚ) (hn : 1 ≤ n) (hc : count < numC)
    (hcur : cur < endT) :
    1 ≤ (clusterLoop gap numC endT n count cur).1.length := by
  cases n with
  | zero => omega
  | succ m =>
    rw [clusterLoop, if_neg (by push_neg; exact ⟨hc, hcur⟩)]
    simp

/-- Fuel adequacy of the walk embedding: every guarded iteration of the
source while loop appends at least one timestamp, so any fuel of at least
num_commits minus the accumulated length computes the loop exactly — in
particular the fuel num_commits used by preJitterSchedule. -/
lemma walk_fuel_stable (o : GenOracle) (numC : ℕ) (endT : ℚ)
    (hcs : ∀ k, 1 ≤ o.clusterSize k) :
    ∀ (fuel fuel₂ k : ℕ) (cur : ℚ) (acc : List ℚ),
      numC ≤ acc.length + fuel → fuel ≤ fuel₂ →
      walk o numC endT fuel k cur acc = walk o numC endT fuel₂ k cur acc := by
  intro fuel
  induction fuel with
  | zero =>
    intro fuel₂ k cur acc hle _
    cases fuel₂ with
    | zero => rfl
    | succ m =>
      simp only [walk]
      rw [if_neg]
      intro hguard
      omega
  | succ f ih =>
    intro fuel₂ k cur acc hle hf2
    cases fuel₂ with
    | zero => omega
    | succ m =>
      by_cases hguard : acc.length < numC ∧ cur < endT
      · simp only [walk, if_pos hguard]
        by_cases hroll : o.clusterRoll k < 1/5
        · rw [if_pos hroll, if_pos hroll]
          apply ih m (k + 1)
          · have := clusterLoop_length_pos (o.clusterGap k) numC endT
              (o.clusterSize k) acc.length cur (hcs k) hguard.1 hguard.2
            simp only [List.length_append]
            omega
          · omega
        · rw [if_neg hroll, if_neg hroll]
          apply ih m (k + 1)
          · simp only [List.length_append, List.length_singleton]
            omega
          · omega
      · simp only [walk, if_neg hguard]

lemma walk_mem (o : GenOracle) (numC : ℕ) (endT low : ℚ)
    (hg : ∀ k j, 0 ≤ o.clusterGap k j)
    (hb : ∀ k, 0 ≤ o.baseInterval k * o.randomFactor k) :
    ∀ (fuel k : ℕ) (cur : ℚ) (acc : List ℚ), low ≤ cur →
      (∀ u ∈ acc, low ≤ u ∧ u < endT) →
      ∀ u ∈ walk o numC endT fuel k cur acc, low ≤ u ∧ u < endT := by
  intro fuel
  induction fuel with
  | zero => intro k cur acc hcur hacc u hu; exact hacc u hu
  | succ f ih =>
    intro k cur acc hcur hacc u hu
    rw [walk] at hu
    by_cases hguard : acc.length < numC ∧ cur < endT
    · rw [if_pos hguard] at hu
      by_cases hroll : o.clusterRoll k < 1/5
      · rw [if_pos hroll] at hu
        obtain ⟨cmem, ccur⟩ := clusterLoop_spec (o.clusterGap k) numC endT (hg k)
          (o.clusterSize k) acc.length cur
        refine ih (k + 1) _ _ (le_trans hcur ccur) ?_ u hu
        intro v hv
        rcases List.mem_append.mp hv with hv | hv
        · exact hacc v hv
        · obtain ⟨h1, h2⟩ := cmem v hv
          exact ⟨le_trans hcur h1, h2⟩
      · rw [if_neg hroll] at hu
        refine ih (k + 1) _ _ (le_trans hcur (le_add_of_nonneg_right (hb k))) ?_ u hu
        intro v hv
        rcases List.mem_append.mp hv with hv | hv
        · exact hacc v hv
        · rw [List.mem_singleton.mp hv]
          exact ⟨hcur, hguard.2⟩
    · rw [if_neg hguard] at hu
      exact hacc u hu

lemma padTimes_mem (o : GenOracle) (cfg : GenConfig) (t : ℚ) (n : ℕ)
    (hpad : ∀ i, 0 ≤ o.padOffset i ∧ o.padOffset i ≤ cfg.windowSeconds) :
    ∀ u ∈ padTimes o t n, t ≤ u ∧ u ≤ t + cfg.windowSeconds := by
  intro u hu
  simp only [padTimes, List.mem_map, List.mem_range] at hu
  obtain ⟨i, _, rfl⟩ := hu
  exact ⟨le_add_of_nonneg_right (hpad i).1, by linarith [(hpad i).2]⟩

lemma preJitterSchedule_length (cfg : GenConfig) (o : GenOracle) (t : ℚ) :
    (preJitterSchedule cfg o t).length = o.numCommits := by
  simp only [preJitterSchedule, List.length_insertionSort, List.length_append,
    List.length_take, padTimes, List.length_map, List.length_range]
  omega

lemma preJitterSchedule_sorted (cfg : GenConfig) (o : GenOracle) (t : ℚ) :
    List.Sorted (· ≤ ·) (preJitterSchedule cfg o t) :=
  List.sorted_insertionSort _ _

lemma preJitterSchedule_mem (cfg : GenConfig) (o : GenOracle) (t : ℚ)
    (hv : GenOracle.Valid cfg o) :
    ∀ u ∈ preJitterSchedule cfg o t, t ≤ u ∧ u ≤ t + cfg.windowSeconds := by
  obtain ⟨-, -, hbase, hfac, -, -, hgap, hpad, -⟩ := hv
  intro u hu
  rw [preJitterSchedule] at hu
  have hu2 := (List.perm_insertionSort (· ≤ ·) _).mem_iff.mp hu
  rcases List.mem_append.mp hu2 with hu3 | hu3
  · have hw := List.take_subset o.numCommits _ hu3
    have := walk_mem o o.numCommits (t + cfg.windowSeconds) t
      (fun k j => le_trans (by norm_num) (hgap k j).1)
      (fun k => mul_nonneg (le_trans (by norm_num) (hbase k).1)
        (le_trans (by norm_num) (hfac k).1))
      o.numCommits 0 t [] (le_refl t) (by simp) u hw
    exact ⟨this.1, le_of_lt this.2⟩
  · exact padTimes_mem o cfg t _ hpad u hu3

/-- Claim C4: with randomize=true and every random draw in its guaranteed
range, generate_commit_schedule returns between min_count and max_count
timestamps, all inside [window.start, window.start + duration]; the jitter
pass keeps the pre-jitter value whenever the jittered one would leave the
window, so no element escapes. -/
theorem generate_length_mem_window (cfg : GenConfig) (o : GenOracle) (t : ℚ)
    (hv : GenOracle.Valid cfg o) (hr : cfg.randomize = true) :
    (cfg.minCommits ≤ (generateCommitSchedule cfg o t).length ∧
      (generateCommitSchedule cfg o t).length ≤ cfg.maxCommits) ∧
    ∀ u ∈ generateCommitSchedule cfg o t,
      t ≤ u ∧ u ≤ t + cfg.windowSeconds := by
  have hgen : generateCommitSchedule cfg o t =
      jitterList o t (t + cfg.windowSeconds) 0 (preJitterSchedule cfg o t) := by
    rw [generateCommitSchedule, if_neg (by simp [hr])]
  rw [hgen]
  constructor
  · rw [jitterList_length, preJitterSchedule_length]
    exact ⟨hv.1, hv.2.1⟩
  · exact jitterList_mem o t (t + cfg.windowSeconds) 0 _
      (preJitterSchedule_mem cfg o t hv)

lemma oConst_valid : GenOracle.Valid ⟨2, 2, 8, true⟩ oConst := by
  refine ⟨le_refl _, le_refl _, ?_, ?_, ?_, ?_, ?_, ?_, ?_⟩ <;>
    intro k <;>
    first
      | (intro j; constructor <;> norm_num [oConst])
      | (constructor <;> norm_num [oConst, GenConfig.windowSeconds])

/-- Witness for C4 at a concrete configuration and oracle. -/
theorem generate_length_mem_window_witness :
    (GenOracle.Valid ⟨2, 2, 8, true⟩ oConst ∧
      (⟨2, 2, 8, true⟩ : GenConfig).randomize = true) ∧
    (((⟨2, 2, 8, true⟩ : GenConfig).minCommits ≤
        (generateCommitSchedule ⟨2, 2, 8, true⟩ oConst 0).length ∧
      (generateCommitSchedule ⟨2, 2, 8, true⟩ oConst 0).length ≤
        (⟨2, 2, 8, true⟩ : GenConfig).maxCommits) ∧
     ∀ u ∈ generateCommitSchedule ⟨2, 2, 8, true⟩ oConst 0,
       (0 : ℚ) ≤ u ∧ u ≤ 0 + GenConfig.windowSeconds ⟨2, 2, 8, true⟩) :=
  ⟨⟨oConst_valid, rfl⟩,
   generate_length_mem_window ⟨2, 2, 8, true⟩ oConst 0 oConst_valid rfl⟩

/-- Claim C2 (amended): the schedule is sorted ascending before the jitter
pass (step 6), and the returned sequence differs from that sorted sequence
by at most 120 seconds per element; the jitter pass itself does not preserve
sortedness (see the counterexample), so the returned sequence is not
guaranteed to be sorted. -/
theorem preJitter_sorted_jitter_bounded (cfg : GenConfig) (o : GenOracle)
    (t : ℚ) (hv : GenOracle.Valid cfg o) (hr : cfg.randomize = true) :
    List.Sorted (· ≤ ·) (preJitterSchedule cfg o t) ∧
    (generateCommitSchedule cfg o t).length = (preJitterSchedule cfg o t).length ∧
    ∀ (n : ℕ) (h1 : n < (generateCommitSchedule cfg o t).length)
      (h2 : n < (preJitterSchedule cfg o t).length),
      |(generateCommitSchedule cfg o t).get ⟨n, h1⟩ -
        (preJitterSchedule cfg o t).get ⟨n, h2⟩| ≤ 120 := by
  have hgen : generateCommitSchedule cfg o t =
      jitterList o t (t + cfg.windowSeconds) 0 (preJitterSchedule cfg o t) := by
    rw [generateCommitSchedule, if_neg (by simp [hr])]
  refine ⟨preJitterSchedule_sorted cfg o t, ?_, ?_⟩
  · rw [hgen, jitterList_length]
  · intro n h1 h2
    have h4 := List.get_of_eq hgen ⟨n, h1⟩
    rw [h4]
    exact jitterList_get_close o t (t + cfg.windowSeconds)
      (fun k => (hv.2.2.2.2.2.2.2.2) k) (preJitterSchedule cfg o t) 0 n _ h2

/-- Witness for the amended C2 at a concrete configuration and oracle. -/
theorem preJitter_sorted_jitter_bounded_witness :
    (GenOracle.Valid ⟨2, 2, 8, true⟩ oConst ∧
      (⟨2, 2, 8, true⟩ : GenConfig).randomize = true) ∧
    (List.Sorted (· ≤ ·) (preJitterSchedule ⟨2, 2, 8, true⟩ oConst 0) ∧
     (generateCommitSchedule ⟨2, 2, 8, true⟩ oConst 0).length =
       (preJitterSchedule ⟨2, 2, 8, true⟩ oConst 0).length ∧
     ∀ (n : ℕ) (h1 : n < (generateCommitSchedule ⟨2, 2, 8, true⟩ oConst 0).length)
       (h2 : n < (preJitterSchedule ⟨2, 2, 8, true⟩ oConst 0).length),
       |(generateCommitSchedule ⟨2, 2, 8, true⟩ oConst 0).get ⟨n, h1⟩ -
         (preJitterSchedule ⟨2, 2, 8, true⟩ oConst 0).get ⟨n, h2⟩| ≤ 120) :=
  ⟨⟨oConst_valid, rfl⟩,
   preJitter_sorted_jitter_bounded ⟨2, 2, 8, true⟩ oConst 0 oConst_valid rfl⟩

/-- Configuration for the C2 counterexample: 2 commits over 8 hours,
randomized. -/
def cfgC2 : GenConfig := ⟨2, 2, 8, true⟩

/-- Oracle for the C2 counterexample: one cluster of two commits 60 seconds
apart at the window start; jitter +120 on the first, -120 on the second.
The second jittered value would land before the window, so the original 60
is kept, while the first becomes 120: the result [120, 60] is unsorted.
Every draw is inside its guaranteed range. -/
def oC2 : GenOracle where
  numCommits := 2
  baseInterval := fun _ => 600
  randomFactor := fun _ => 1
  clusterRoll := fun _ => 0
  clusterSize := fun _ => 2
  clusterGap := fun _ _ => 60
  padOffset := fun _ => 0
  jitter := fun i => if i = 0 then 120 else -120

/-- Claim C2 counterexample: a legitimate random outcome for which the
sequence returned by generate_commit_schedule is not sorted ascending —
the per-element jitter of step 7 is applied after the sort of step 6 and
can reorder close-together timestamps. -/
theorem jitter_breaks_sorted :
    GenOracle.Valid cfgC2 oC2 ∧
    ¬ List.Sorted (· ≤ ·) (generateCommitSchedule cfgC2 oC2 0) := by
  constructor
  · refine ⟨le_refl _, le_refl _, ?_, ?_, ?_, ?_, ?_, ?_, ?_⟩
    · intro k; constructor <;> norm_num [oC2]
    · intro k; constructor <;> norm_num [oC2]
    · intro k; constructor <;> norm_num [oC2]
    · intro k; constructor <;> norm_num [oC2]
    · intro k j; constructor <;> norm_num [oC2]
    · intro k; constructor <;> norm_num [oC2, cfgC2, GenConfig.windowSeconds]
    · intro k
      constructor <;> (simp only [oC2]; split_ifs <;> norm_num)
  · have hval : generateCommitSchedule cfgC2 oC2 0 = [120, 60] := by
      norm_num [generateCommitSchedule, cfgC2, oC2, preJitterSchedule, walk,
        clusterLoop, jitterList, padTimes, GenConfig.windowSeconds,
        List.insertionSort, List.orderedInsert]
    rw [hval]
    intro hsorted
    have := List.rel_of_sorted_cons hsorted 60 (by simp)
    norm_num at this

end AutoCommit
